import Mathlib

/-!
Verification of the opencontainers-rs client library against its
natural-language specification.

Shallow embedding conventions:
* OS-native strings (Rust `OsStr`) are sequences of code units, `List Char`,
  which keeps the whiteout handling byte-exact as the source requires;
* filesystem paths are lists of normal components (Rust `Path::components`
  drops separators and `.` segments; a literal `..` component is kept);
* network and filesystem I/O is modelled by explicit oracles passed as
  arguments, so each call's outcomes are quantified in the theorems.
-/

namespace Opencontainers

/-- OS-native string: a sequence of code units (bytes on POSIX). -/
abbrev OsStr := List Char

/-- A filesystem path, as the list of its normal components. -/
abbrev OsPath := List OsStr

/-- Convert a Lean string literal to an OS string. -/
def osStr (s : String) : OsStr := s.toList

/-- `Path::file_name`: the last component, unless it is `..` or the path
has no components. -/
def fileName (p : OsPath) : Option OsStr :=
  match p.getLast? with
  | none => none
  | some c => if c = osStr ".." then none else some c

/-- The 4-byte whiteout marker `.wh.`. -/
def whMark : OsStr := osStr ".wh."

/-- `glue::get_whiteout_path` (unix variant, `glue.rs:59`/`glue.rs:68`):
if the final component begins with the 4-byte `.wh.` marker, return the path
whose final component has the first 4 bytes stripped, else `none`. -/
def get_whiteout_path (path : OsPath) : Option OsPath :=
  match fileName path with
  | none => none
  | some filename =>
    if whMark.isPrefixOf filename then
      some (path.dropLast ++ [filename.drop 4])
    else
      none

/-- Outcome of the real filesystem's `fs::canonicalize` on one path, as seen
by `partially_canonicalize`: success with the canonical path, a NotFound
error, or any other I/O error. -/
inductive FsResult where
  | ok (canon : OsPath)
  | notFound
  | ioError
deriving DecidableEq, Repr

/-- The filesystem oracle: what `Path::canonicalize` returns on each
(absolute) path, given as its component list. -/
abbrev Fs := OsPath → FsResult

/-- The `UnpackError` variants reachable from the pure fragment of
`check_path_in` (`glue.rs:17`); causes are dropped. -/
inductive UnpackError where
  | canonicalizePath (p : OsPath)
  | pathAbs
deriving DecidableEq, Repr

/-- Fuel-driven helper for `ancestors`: drops the last component until the
root is reached.  The fuel is the path's length, which bounds the number of
`dropLast` steps. -/
def ancestorsAux : Nat → OsPath → List OsPath
  | 0, _ => [[]]
  | _, [] => [[]]
  | n + 1, c :: cs => (c :: cs) :: ancestorsAux n (c :: cs).dropLast

/-- `Path::ancestors` of an absolute path, longest first, ending with the
root (the empty component list). -/
def ancestors (p : OsPath) : List OsPath := ancestorsAux p.length p

/-- The semantic `.`/`..` resolution performed by `path_abs::PathAbs::new`:
`..` pops the previous component (saturating at the root); `.` segments are
already dropped by component parsing. -/
def resolveDotDot (p : OsPath) : OsPath :=
  p.foldl (fun acc c => if c = osStr ".." then acc.dropLast else acc ++ [c]) []

/-- The ancestor loop of `glue::partially_canonicalize` (`glue.rs:99`):
try to canonicalize each ancestor, longest first; on the first success append
the uncanonicalized rest and stop; continue past NotFound; fail on any other
I/O error.  If no ancestor canonicalizes the accumulator stays empty. -/
def canonLoop (fs : Fs) (path : OsPath) : List OsPath → Except UnpackError OsPath
  | [] => .ok []
  | base :: rest =>
    match fs base with
    | .ok canon => .ok (canon ++ path.drop base.length)
    | .notFound => canonLoop fs path rest
    | .ioError => .error (.canonicalizePath base)

/-- `glue::partially_canonicalize` (`glue.rs:96`): the ancestor loop followed
by the semantic `..` resolution of `path_abs::PathAbs::new`. -/
def partially_canonicalize (fs : Fs) (path : OsPath) : Except UnpackError OsPath :=
  (canonLoop fs path (ancestors path)).map resolveDotDot

/-- `glue::check_path_in` (`glue.rs:166`): canonicalize the candidate, then
the base, and test `candidate.starts_with(base)`, i.e. whether the
canonicalized base is a component-wise path-prefix of the canonicalized
candidate. -/
def check_path_in (fs : Fs) (base path : OsPath) : Except UnpackError Bool :=
  match partially_canonicalize fs path with
  | .error e => .error e
  | .ok canonicalized =>
    match partially_canonicalize fs base with
    | .error e => .error e
    | .ok canonBase => .ok (canonBase.isPrefixOf canonicalized)

/-- Stated from the spec's words for comparison with `check_path_in`:
"Return whether the canonicalized candidate is a path-prefix of the
canonicalized base" — the prefix test taken in that direction. -/
def check_path_in_claimed (fs : Fs) (base path : OsPath) : Except UnpackError Bool :=
  match partially_canonicalize fs path with
  | .error e => .error e
  | .ok canonicalized =>
    match partially_canonicalize fs base with
    | .error e => .error e
    | .ok canonBase => .ok (canonicalized.isPrefixOf canonBase)

/-- A filesystem in which only the root exists: canonicalization is the
identity up to the semantic `..` resolution (no symlinks, as in the
documentation examples). -/
def fsRootOnly : Fs := fun p => if p = [] then .ok [] else .notFound

/-- The sink callbacks of the `Unpack` trait that `apply_change` dispatches. -/
inductive SinkCall where
  | add (path : OsPath)
  | whiteoutFile (path : OsPath)
  | whiteoutFolder (path : OsPath)
deriving DecidableEq, Repr

/-- The opaque-directory marker `.wh..wh..opq`. -/
def opqMark : OsStr := osStr ".wh..wh..opq"

/-- `Unpack::apply_change` (`glue.rs:235`): dispatch one sink callback for a
tar entry, by its path. -/
def apply_change (path : OsPath) : SinkCall :=
  match fileName path with
  | some filename =>
    if filename = opqMark then
      .whiteoutFolder path.dropLast
    else
      match get_whiteout_path path with
      | some w => .whiteoutFile w
      | none => .add path
  | none => .add path

/-- C1: `apply_change` dispatches exactly one sink callback (it is a total
function into `SinkCall`), chosen by the entry path's final component: the
opaque marker `.wh..wh..opq` dispatches `whiteout_folder` on the parent and
nothing else; otherwise a final component beginning with `.wh.` dispatches
`whiteout_file` on the path with that marker stripped; otherwise `add` on the
entry.  The opaque-marker check takes precedence over the per-file whiteout
check. -/
theorem apply_change_dispatch (path : OsPath) :
    (fileName path = some opqMark →
      apply_change path = .whiteoutFolder path.dropLast) ∧
    (∀ s, fileName path = some s → s ≠ opqMark → whMark.isPrefixOf s = true →
      apply_change path = .whiteoutFile (path.dropLast ++ [s.drop 4])) ∧
    (∀ s, fileName path = some s → whMark.isPrefixOf s = false →
      apply_change path = .add path) ∧
    (fileName path = none → apply_change path = .add path) := by
  refine ⟨?_, ?_, ?_, ?_⟩
  · intro h
    simp [apply_change, h]
  · intro s hs hne hpre
    simp [apply_change, get_whiteout_path, hs, hne, hpre]
  · intro s hs hpre
    have hne : s ≠ opqMark := by
      rintro rfl
      have : whMark.isPrefixOf opqMark = true := by decide
      rw [this] at hpre
      exact absurd hpre (by decide)
    simp [apply_change, get_whiteout_path, hs, hne, hpre]
  · intro h
    simp [apply_change, h]

/-- Witness for `apply_change_dispatch`, discharging each hypothesis at
concrete entry paths. -/
theorem apply_change_dispatch_witness :
    apply_change [osStr "d", opqMark] = .whiteoutFolder [osStr "d"] ∧
    apply_change [osStr "d", osStr ".wh.f"] =
      .whiteoutFile [osStr "d", osStr "f"] ∧
    apply_change [osStr "d", osStr "f"] = .add [osStr "d", osStr "f"] ∧
    apply_change [] = .add [] := by
  refine ⟨?_, ?_, ?_, ?_⟩
  · exact (apply_change_dispatch [osStr "d", opqMark]).1 (by decide)
  · exact (apply_change_dispatch [osStr "d", osStr ".wh.f"]).2.1 (osStr ".wh.f")
      (by decide) (by decide) (by decide)
  · exact (apply_change_dispatch [osStr "d", osStr "f"]).2.2.1 (osStr "f")
      (by decide) (by decide)
  · exact (apply_change_dispatch []).2.2.2 (by decide)

/-- C5: `get_whiteout_path` returns `some` of the input path with exactly the
4-byte `.wh.` marker stripped from the final component when that component
starts with the marker, and `none` when the final component lacks the marker
or the path has no final component; in particular `a/b/.wh.c` maps to
`some a/b/c` and `a/b/c` to `none`. -/
theorem get_whiteout_path_spec :
    (∀ (p : OsPath) (s : OsStr), fileName p = some (whMark ++ s) →
      get_whiteout_path p = some (p.dropLast ++ [s])) ∧
    (∀ (p : OsPath) (s : OsStr), fileName p = some s →
      whMark.isPrefixOf s = false → get_whiteout_path p = none) ∧
    (∀ p : OsPath, fileName p = none → get_whiteout_path p = none) ∧
    get_whiteout_path [osStr "a", osStr "b", osStr ".wh.c"] =
      some [osStr "a", osStr "b", osStr "c"] ∧
    get_whiteout_path [osStr "a", osStr "b", osStr "c"] = none := by
  refine ⟨?_, ?_, ?_, by decide, by decide⟩
  · intro p s hp
    have hpre : whMark.isPrefixOf (whMark ++ s) = true := by
      rw [List.isPrefixOf_iff_prefix]
      exact List.prefix_append whMark s
    have hdrop : (whMark ++ s).drop 4 = s := by
      have h4 : whMark.length = 4 := by decide
      rw [← h4]
      exact List.drop_left whMark s
    simp [get_whiteout_path, hp, hpre, hdrop]
  · intro p s hp hpre
    simp [get_whiteout_path, hp, hpre]
  · intro p hp
    simp [get_whiteout_path, hp]

/-- Witness for `get_whiteout_path_spec`, discharging each hypothesis at
concrete paths. -/
theorem get_whiteout_path_spec_witness :
    get_whiteout_path [osStr "x", osStr ".wh.y"] =
      some [osStr "x", osStr "y"] ∧
    get_whiteout_path [osStr "x", osStr "y"] = none ∧
    get_whiteout_path [osStr "x", osStr ".."] = none := by
  refine ⟨?_, ?_, ?_⟩
  · exact get_whiteout_path_spec.1 [osStr "x", osStr ".wh.y"] (osStr "y")
      (by decide)
  · exact get_whiteout_path_spec.2.1 [osStr "x", osStr "y"] (osStr "y")
      (by decide) (by decide)
  · exact get_whiteout_path_spec.2.2.1 [osStr "x", osStr ".."] (by decide)

/-- C10: `get_whiteout_path` does not special-case the opaque marker: when the
final component is exactly `.wh..wh..opq` it returns `some` of the path with
final component `.wh..opq` (only the first 4 bytes stripped).  The marker is
kept away from the `whiteout_file` handler solely because `apply_change`
checks for it before calling `get_whiteout_path`. -/
theorem get_whiteout_path_opq (p : OsPath) (h : fileName p = some opqMark) :
    get_whiteout_path p = some (p.dropLast ++ [osStr ".wh..opq"]) ∧
    apply_change p = .whiteoutFolder p.dropLast := by
  constructor
  · have hpre : whMark.isPrefixOf opqMark = true := by decide
    have hdrop : opqMark.drop 4 = osStr ".wh..opq" := by decide
    simp [get_whiteout_path, h, hpre, hdrop]
  · simp [apply_change, h]

/-- Witness for `get_whiteout_path_opq` at the concrete path `d/.wh..wh..opq`. -/
theorem get_whiteout_path_opq_witness :
    get_whiteout_path [osStr "d", opqMark] =
      some [osStr "d", osStr ".wh..opq"] ∧
    apply_change [osStr "d", opqMark] = .whiteoutFolder [osStr "d"] :=
  get_whiteout_path_opq [osStr "d", opqMark] (by decide)

/-- C3: `check_path_in` satisfies the POSIX containment examples (taken over a
symlink-free filesystem model, where canonicalization is the identity up to
the semantic `..` resolution): `("/var/", "/var/empty/foo/bar")` is `true`,
`("/var/empty/bar", "/var/empty/foo/../bar")` is `true` after `..`
resolution, and `("/var/empty/fo", "/var/empty/foo/bar")` is `false` because
the prefix comparison is at path-component boundaries. -/
theorem check_path_in_examples :
    check_path_in fsRootOnly [osStr "var"]
      [osStr "var", osStr "empty", osStr "foo", osStr "bar"] = .ok true ∧
    check_path_in fsRootOnly [osStr "var", osStr "empty", osStr "bar"]
      [osStr "var", osStr "empty", osStr "foo", osStr "..", osStr "bar"] =
      .ok true ∧
    check_path_in fsRootOnly [osStr "var", osStr "empty", osStr "fo"]
      [osStr "var", osStr "empty", osStr "foo", osStr "bar"] = .ok false := by
  refine ⟨rfl, rfl, rfl⟩

/-- C4 counterexample: at base `/var` and candidate `/var/empty/foo/bar`,
`check_path_in` returns `true`, yet the canonicalized candidate is *not* a
path-prefix of the canonicalized base (the claim's direction of the prefix
test, `check_path_in_claimed`, yields `false` there). -/
theorem check_path_in_direction_counterexample :
    check_path_in fsRootOnly [osStr "var"]
      [osStr "var", osStr "empty", osStr "foo", osStr "bar"] = .ok true ∧
    check_path_in_claimed fsRootOnly [osStr "var"]
      [osStr "var", osStr "empty", osStr "foo", osStr "bar"] = .ok false := by
  refine ⟨rfl, rfl⟩

/-- C4 (amended): for every filesystem oracle, base and candidate on which
both canonicalizations succeed, `check_path_in` returns whether the
partially-canonicalized *base* is a path-prefix of the partially-canonicalized
*candidate*. -/
theorem check_path_in_returns_base_prefix_of_candidate (fs : Fs)
    (base path b c : OsPath)
    (hb : partially_canonicalize fs base = .ok b)
    (hp : partially_canonicalize fs path = .ok c) :
    check_path_in fs base path = .ok (b.isPrefixOf c) := by
  simp [check_path_in, hb, hp]

/-- Witness for `check_path_in_returns_base_prefix_of_candidate` at concrete
inputs over the root-only filesystem. -/
theorem check_path_in_returns_base_prefix_of_candidate_witness :
    check_path_in fsRootOnly [osStr "var"] [osStr "var", osStr "empty"] =
      .ok (List.isPrefixOf [osStr "var"] [osStr "var", osStr "empty"]) :=
  check_path_in_returns_base_prefix_of_candidate fsRootOnly
    [osStr "var"] [osStr "var", osStr "empty"]
    [osStr "var"] [osStr "var", osStr "empty"] rfl rfl

/-! ## Manifest schema probe (`src/image/manifest.rs`) -/

/-- A JSON value, the abstraction of a syntactically valid manifest string
(numbers restricted to integers, as the probed fields are `u64`). -/
inductive Json where
  | null
  | bool (b : Bool)
  | num (n : Int)
  | str (s : String)
  | arr (elems : List Json)
  | obj (fields : List (String × Json))

/-- Object field lookup, as serde sees a named struct field. -/
def getField : Json → String → Option Json
  | .obj fields, key => fields.lookup key
  | _, _ => none

/-- serde's `u64` deserialization: an integer in `[0, 2^64)`. -/
def asU64 : Json → Option Nat
  | .num n => if 0 ≤ n ∧ n < 2 ^ 64 then some n.toNat else none
  | _ => none

/-- serde's `String` deserialization. -/
def asString : Json → Option String
  | .str s => some s
  | _ => none

/-- Deserialization of `ManifestSchemaOnlyV2` (`manifest.rs:17`): the
`schemaVersion` field as a `u64`; `none` models a `serde_json` error. -/
def deserializeSchemaOnly (j : Json) : Option Nat :=
  (getField j "schemaVersion").bind asU64

/-- Deserialization of `ManifestMediaTypeOnlyV2_2` (`manifest.rs:31`): the
`mediaType` field as a string; `none` models a `serde_json` error. -/
def deserializeMediaTypeOnly (j : Json) : Option String :=
  (getField j "mediaType").bind asString

/-- The discriminants of `ManifestV2` (`manifest.rs:68`). -/
inductive ManifestV2Schema where
  | schema1
  | schema2
  | schema2List
deriving DecidableEq, Repr

/-- `ManifestError` (`manifest.rs:3`); the `serde_json` cause is dropped. -/
inductive ManifestError where
  | jsonError
  | invalidSchemaVersion (n : Nat)
  | invalidMediaType (s : String)
deriving DecidableEq, Repr

/-- `media_type.split('+').next()`: the text before the first `+`. -/
def mediaTypeSplit (s : String) : String :=
  String.mk (s.toList.takeWhile (fun c => c ≠ '+'))

/-- `probe_manifest_v2_schema` (`manifest.rs:84`): read `schemaVersion`;
version 1 is Schema 1; version 2 routes by the media type before the first
`+`; any other version is `InvalidSchemaVersion`. -/
def probe_manifest_v2_schema (j : Json) : Except ManifestError ManifestV2Schema :=
  match deserializeSchemaOnly j with
  | none => .error .jsonError
  | some schema =>
    match schema with
    | 1 => .ok .schema1
    | 2 =>
      match deserializeMediaTypeOnly j with
      | none => .error .jsonError
      | some mediaType =>
        if mediaTypeSplit mediaType = "application/vnd.oci.distribution.manifest.v2" then
          .ok .schema2
        else if mediaTypeSplit mediaType = "application/vnd.oci.distribution.manifest.list.v2" then
          .ok .schema2List
        else if mediaTypeSplit mediaType = "application/vnd.docker.distribution.manifest.v2" then
          .ok .schema2
        else if mediaTypeSplit mediaType = "application/vnd.docker.distribution.manifest.list.v2" then
          .ok .schema2List
        else
          .error (.invalidMediaType mediaType)
    | other => .error (.invalidSchemaVersion other)

/-- C2: the schema probe returns Schema 1 whenever `schemaVersion` is 1,
regardless of any `mediaType`; when `schemaVersion` is 2 it routes by the
media-type text before the first `+` through the four
oci/docker `distribution.manifest` prefixes, and returns `InvalidMediaType`
for any other media type; any other schema version yields
`InvalidSchemaVersion` carrying that version. -/
theorem probe_manifest_v2_schema_spec (j : Json) :
    (deserializeSchemaOnly j = some 1 →
      probe_manifest_v2_schema j = .ok .schema1) ∧
    (∀ mt, deserializeSchemaOnly j = some 2 →
      deserializeMediaTypeOnly j = some mt →
      probe_manifest_v2_schema j =
        (if mediaTypeSplit mt = "application/vnd.oci.distribution.manifest.v2" then
          .ok .schema2
        else if mediaTypeSplit mt = "application/vnd.oci.distribution.manifest.list.v2" then
          .ok .schema2List
        else if mediaTypeSplit mt = "application/vnd.docker.distribution.manifest.v2" then
          .ok .schema2
        else if mediaTypeSplit mt = "application/vnd.docker.distribution.manifest.list.v2" then
          .ok .schema2List
        else
          .error (.invalidMediaType mt))) ∧
    (∀ v, deserializeSchemaOnly j = some v → v ≠ 1 → v ≠ 2 →
      probe_manifest_v2_schema j = .error (.invalidSchemaVersion v)) := by
  refine ⟨?_, ?_, ?_⟩
  · intro h
    simp [probe_manifest_v2_schema, h]
  · intro mt h2 hmt
    simp [probe_manifest_v2_schema, h2, hmt]
  · intro v h hv1 hv2
    match v, hv1, hv2 with
    | 0, _, _ => simp [probe_manifest_v2_schema, h]
    | 1, hv1, _ => exact absurd rfl hv1
    | 2, _, hv2 => exact absurd rfl hv2
    | (n + 3), _, _ => simp [probe_manifest_v2_schema, h]

/-- Witness for `probe_manifest_v2_schema_spec` on concrete manifests:
schema 1, schema 2 with the docker list media type, and schema 3. -/
theorem probe_manifest_v2_schema_spec_witness :
    probe_manifest_v2_schema (.obj [("schemaVersion", .num 1)]) =
      .ok .schema1 ∧
    probe_manifest_v2_schema (.obj [("schemaVersion", .num 2),
      ("mediaType", .str "application/vnd.docker.distribution.manifest.list.v2+json")]) =
      .ok .schema2List ∧
    probe_manifest_v2_schema (.obj [("schemaVersion", .num 3)]) =
      .error (.invalidSchemaVersion 3) := by
  refine ⟨?_, ?_, ?_⟩
  · exact (probe_manifest_v2_schema_spec _).1 rfl
  · have h := (probe_manifest_v2_schema_spec
      (.obj [("schemaVersion", .num 2),
        ("mediaType", .str "application/vnd.docker.distribution.manifest.list.v2+json")])).2.1
      "application/vnd.docker.distribution.manifest.list.v2+json" rfl rfl
    rw [h]
    rfl
  · exact (probe_manifest_v2_schema_spec _).2.2 3 rfl (by decide) (by decide)

/-! ## Go platform tags (`src/image/go.rs`) -/

/-- `GoError` (`go.rs:5`). -/
inductive GoError where
  | invalidGoOs (s : String)
  | invalidGoArch (s : String)
deriving DecidableEq, Repr

/-- `GoOs` (`go.rs:14`): the closed enumeration of `GOOS` values. -/
inductive GoOs where
  | android | darwin | dragonfly | freebsd | linux | nacl
  | netbsd | openbsd | plan9 | solaris | windows | zos
deriving DecidableEq, Repr

/-- `impl FromStr for GoOs` (`go.rs:30`). -/
def GoOs.fromStr (s : String) : Except GoError GoOs :=
  if s = "android" then .ok .android
  else if s = "darwin" then .ok .darwin
  else if s = "dragonfly" then .ok .dragonfly
  else if s = "freebsd" then .ok .freebsd
  else if s = "linux" then .ok .linux
  else if s = "nacl" then .ok .nacl
  else if s = "netbsd" then .ok .netbsd
  else if s = "openbsd" then .ok .openbsd
  else if s = "plan9" then .ok .plan9
  else if s = "solaris" then .ok .solaris
  else if s = "windows" then .ok .windows
  else if s = "zos" then .ok .zos
  else .error (.invalidGoOs s)

/-- `impl Display for GoOs` (`go.rs:52`). -/
def GoOs.toString : GoOs → String
  | .android => "android"
  | .darwin => "darwin"
  | .dragonfly => "dragonfly"
  | .freebsd => "freebsd"
  | .linux => "linux"
  | .nacl => "nacl"
  | .netbsd => "netbsd"
  | .openbsd => "openbsd"
  | .plan9 => "plan9"
  | .solaris => "solaris"
  | .windows => "windows"
  | .zos => "zos"

/-- The recognized `GOOS` strings, in source order. -/
def goOsStrings : List String :=
  ["android", "darwin", "dragonfly", "freebsd", "linux", "nacl",
   "netbsd", "openbsd", "plan9", "solaris", "windows", "zos"]

/-- `GoArch` (`go.rs:95`): the closed enumeration of `GOARCH` values. -/
inductive GoArch where
  | i386 | amd64 | amd64p32 | arm | armbe | arm64 | arm64be
  | ppc64 | ppc64le | mips | mipsle | mips64 | mips64le
  | mips64p32 | mips64p32le | ppc | s390 | s390x | sparc | sparc64
deriving DecidableEq, Repr

/-- `impl FromStr for GoArch` (`go.rs:119`). -/
def GoArch.fromStr (s : String) : Except GoError GoArch :=
  if s = "386" then .ok .i386
  else if s = "amd64" then .ok .amd64
  else if s = "amd64p32" then .ok .amd64p32
  else if s = "arm" then .ok .arm
  else if s = "armbe" then .ok .armbe
  else if s = "arm64" then .ok .arm64
  else if s = "arm64be" then .ok .arm64be
  else if s = "ppc64" then .ok .ppc64
  else if s = "ppc64le" then .ok .ppc64le
  else if s = "mips" then .ok .mips
  else if s = "mipsle" then .ok .mipsle
  else if s = "mips64" then .ok .mips64
  else if s = "mips64le" then .ok .mips64le
  else if s = "mips64p32" then .ok .mips64p32
  else if s = "mips64p32le" then .ok .mips64p32le
  else if s = "ppc" then .ok .ppc
  else if s = "s390" then .ok .s390
  else if s = "s390x" then .ok .s390x
  else if s = "sparc" then .ok .sparc
  else if s = "sparc64" then .ok .sparc64
  else .error (.invalidGoArch s)

/-- `impl Display for GoArch` (`go.rs:149`). -/
def GoArch.toString : GoArch → String
  | .i386 => "386"
  | .amd64 => "amd64"
  | .amd64p32 => "amd64p32"
  | .arm => "arm"
  | .armbe => "armbe"
  | .arm64 => "arm64"
  | .arm64be => "arm64be"
  | .ppc64 => "ppc64"
  | .ppc64le => "ppc64le"
  | .mips => "mips"
  | .mipsle => "mipsle"
  | .mips64 => "mips64"
  | .mips64le => "mips64le"
  | .mips64p32 => "mips64p32"
  | .mips64p32le => "mips64p32le"
  | .ppc => "ppc"
  | .s390 => "s390"
  | .s390x => "s390x"
  | .sparc => "sparc"
  | .sparc64 => "sparc64"

/-- The recognized `GOARCH` strings, in source order. -/
def goArchStrings : List String :=
  ["386", "amd64", "amd64p32", "arm", "armbe", "arm64", "arm64be",
   "ppc64", "ppc64le", "mips", "mipsle", "mips64", "mips64le",
   "mips64p32", "mips64p32le", "ppc", "s390", "s390x", "sparc", "sparc64"]

/-- C9: every `GoOs` and `GoArch` value survives a string round trip, and
every string outside the respective enumerated value set fails to parse with
the structured invalid-value error carrying that string. -/
theorem go_platform_roundtrip :
    (∀ v : GoOs, GoOs.fromStr (GoOs.toString v) = .ok v) ∧
    (∀ v : GoArch, GoArch.fromStr (GoArch.toString v) = .ok v) ∧
    (∀ s : String, s ∉ goOsStrings →
      GoOs.fromStr s = .error (.invalidGoOs s)) ∧
    (∀ s : String, s ∉ goArchStrings →
      GoArch.fromStr s = .error (.invalidGoArch s)) := by
  refine ⟨?_, ?_, ?_, ?_⟩
  · intro v
    cases v <;> rfl
  · intro v
    cases v <;> rfl
  · intro s hs
    simp only [goOsStrings, List.mem_cons, List.mem_singleton, not_or] at hs
    obtain ⟨h1, h2, h3, h4, h5, h6, h7, h8, h9, h10, h11, h12⟩ := hs
    simp [GoOs.fromStr, h1, h2, h3, h4, h5, h6, h7, h8, h9, h10, h11, h12]
  · intro s hs
    simp only [goArchStrings, List.mem_cons, List.mem_singleton, not_or] at hs
    obtain ⟨h1, h2, h3, h4, h5, h6, h7, h8, h9, h10,
      h11, h12, h13, h14, h15, h16, h17, h18, h19, h20⟩ := hs
    simp [GoArch.fromStr, h1, h2, h3, h4, h5, h6, h7, h8, h9, h10,
      h11, h12, h13, h14, h15, h16, h17, h18, h19, h20]

/-- Witness for `go_platform_roundtrip` at unrecognized strings. -/
theorem go_platform_roundtrip_witness :
    GoOs.fromStr "beos" = .error (.invalidGoOs "beos") ∧
    GoArch.fromStr "vax" = .error (.invalidGoArch "vax") :=
  ⟨go_platform_roundtrip.2.2.1 "beos" (by decide),
   go_platform_roundtrip.2.2.2 "vax" (by decide)⟩

/-! ## Distribution engine (`src/distribution/mod.rs`, `src/distribution/auth.rs`)

Network I/O is modelled by oracles: each call's HTTP outcomes are arguments,
so the theorems quantify over every possible server behaviour. -/

/-- `StatusCode::is_success`: a 2xx status. -/
def is_success (status : Nat) : Bool :=
  decide (200 ≤ status ∧ status < 300)

/-- `RegistryError` (`distribution/mod.rs:9`); causes are dropped. -/
inductive RegistryError where
  | reqwestError
  | invalidAuthenticationChallenge (s : String)
  | couldNotGetToken (status : Nat)
  | couldNotAuthenticate
  | manifestError (e : ManifestError)
  | unsupportedManifestSchema (s : ManifestV2Schema)
  | imageSpecError
deriving DecidableEq, Repr

/-- `auth::Token` (`auth.rs:80`); the `issued_at` timestamp is opaque. -/
structure Token where
  token : String
  expiresIn : Option Nat
  issuedAt : Option Int
  refreshToken : Option String
deriving DecidableEq, Repr

/-- `auth::Credential` (`auth.rs:10`). -/
inductive Credential where
  | token (t : Token)
deriving DecidableEq, Repr

/-- `auth::BearerChallenge` (`auth.rs:27`). -/
structure BearerChallenge where
  realm : Option String
  service : Option String
  scopes : Option (List String)
deriving DecidableEq, Repr

/-- Oracle for the unauthenticated token request `Token::get` sends to a
realm with its query parameters: a transport error, or the response status
together with the parsed `Token` JSON body when it parses. -/
abbrev TokenFetch := String → List (String × String) → Except Unit (Nat × Option Token)

/-- The query parameters `Token::get` builds (`auth.rs:107`): one `scope`
pair per scope, then `service` when present. -/
def queryParams (chall : BearerChallenge) : List (String × String) :=
  ((chall.scopes.getD []).map (fun scope => ("scope", scope))) ++
    (match chall.service with
     | some service => [("service", service)]
     | none => [])

/-- `Token::get` (`auth.rs:96`): require a realm, issue the token request,
fail with `CouldNotGetToken` on non-2xx, with `ReqwestError` on transport or
JSON-parse failure, else return the token. -/
def Token.get (fetch : TokenFetch) (chall : BearerChallenge) :
    Except RegistryError Token :=
  match chall.realm with
  | none => .error (.invalidAuthenticationChallenge "No Realm provided")
  | some realm =>
    match fetch realm (queryParams chall) with
    | .error _ => .error .reqwestError
    | .ok (status, body) =>
      if is_success status = false then
        .error (.couldNotGetToken status)
      else
        match body with
        | none => .error .reqwestError
        | some token => .ok token

/-- The outcome of `WwwAuthenticate::parse_header` followed by
`.get::<BearerChallenge>()` on the header value (the external
`www_authenticate` crate is the oracle): a parse error, no Bearer challenge
found, or the list of Bearer challenges. -/
abbrev ParsedChallenges := Except Unit (Option (List BearerChallenge))

/-- `auth::do_challenge` (`auth.rs:143`): parse the header, require a Bearer
challenge, fetch a token per challenge, keep the successes. `headerDebug` is
the debug rendering of the raw header used in the parse-error message. -/
def do_challenge (fetch : TokenFetch) (parsed : ParsedChallenges)
    (headerDebug : String) : Except RegistryError (List Credential) :=
  match parsed with
  | .error _ => .error (.invalidAuthenticationChallenge headerDebug)
  | .ok none => .error (.invalidAuthenticationChallenge "No Bearer Challenge provided")
  | .ok (some challenges) =>
    .ok (((challenges.map (fun c => Token.get fetch c)).filterMap
      Except.toOption).map Credential.token)

/-- An HTTP response as `Registry::get` inspects it: its status and its
`WWW-Authenticate` header when present. -/
structure HttpResponse where
  status : Nat
  wwwAuthenticate : Option String
deriving DecidableEq, Repr

/-- The I/O oracle for one `Registry::get` call: the outcome of the initial
request (sent with the cached credential, if any), the outcome of a retry
with a given credential, and the outcome of the auth engine (`try_auth` /
`do_challenge`) on a header value.  `Except Unit` models transport errors. -/
structure Network where
  first : Except Unit HttpResponse
  retry : Credential → Except Unit HttpResponse
  challenge : String → Except RegistryError (List Credential)

/-- `Registry::attempt_request` (`distribution/mod.rs:92`): transport errors
become `ReqwestError`; otherwise the response is split by `is_success`. -/
def attempt_request (outcome : Except Unit HttpResponse) :
    Except RegistryError (Except HttpResponse HttpResponse) :=
  match outcome with
  | .error _ => .error .reqwestError
  | .ok response =>
    if is_success response.status then .ok (.ok response)
    else .ok (.error response)

/-- The credential retry loop of `Registry::get`
(`distribution/mod.rs:180`): try each credential in order, return the first
2xx response, propagate transport errors, and fail with
`CouldNotAuthenticate` when the list is exhausted. -/
def tryCreds (net : Network) : List Credential → Except RegistryError HttpResponse
  | [] => .error .couldNotAuthenticate
  | c :: rest =>
    match attempt_request (net.retry c) with
    | .error e => .error e
    | .ok (.ok response) => .ok response
    | .ok (.error _) => tryCreds net rest

/-- `Registry::get` (`distribution/mod.rs:140`), instrumented with the number
of auth-engine rounds (`try_auth` invocations) the call performs. -/
def Registry.getTraced (net : Network) :
    Except RegistryError HttpResponse × Nat :=
  match attempt_request net.first with
  | .error e => (.error e, 0)
  | .ok (.ok response) => (.ok response, 0)
  | .ok (.error response) =>
    if response.status = 401 ∧ response.wwwAuthenticate.isSome = false then
      (.error (.invalidAuthenticationChallenge
        "No authentication challenge presented"), 0)
    else if ¬ response.status = 401 then
      (.error (.couldNotGetToken response.status), 0)
    else
      match response.wwwAuthenticate with
      | none =>
        (.error (.invalidAuthenticationChallenge
          "Missing WWW-Authenticate Header"), 0)
      | some header =>
        match net.challenge header with
        | .error e => (.error e, 1)
        | .ok creds => (tryCreds net creds, 1)

/-- `Registry::get`: the result of the instrumented semantics. -/
def Registry.get (net : Network) : Except RegistryError HttpResponse :=
  (Registry.getTraced net).1

/-- The first 2xx response among the retries for a credential list, skipping
credentials whose retry was not 2xx (stated from the spec's "return the first
2xx response"). -/
def firstSuccess (retry : Credential → Except Unit HttpResponse) :
    List Credential → Option HttpResponse
  | [] => none
  | c :: rest =>
    match retry c with
    | .ok r => if is_success r.status then some r else firstSuccess retry rest
    | .error _ => firstSuccess retry rest

/-- When no retry hits a transport error, the retry loop returns the first
2xx response, or `CouldNotAuthenticate` when there is none. -/
theorem tryCreds_eq_firstSuccess (net : Network) (creds : List Credential)
    (hok : ∀ c ∈ creds, ∃ resp, net.retry c = .ok resp) :
    tryCreds net creds =
      (match firstSuccess net.retry creds with
       | some resp => .ok resp
       | none => .error .couldNotAuthenticate) := by
  induction creds with
  | nil => rfl
  | cons c rest ih =>
    obtain ⟨resp, hresp⟩ := hok c (List.mem_cons_self c rest)
    have ih' := ih (fun c' hc' => hok c' (List.mem_cons_of_mem _ hc'))
    by_cases hs : is_success resp.status = true
    · simp [tryCreds, firstSuccess, attempt_request, hresp, hs]
    · replace hs : is_success resp.status = false := by
        rwa [Bool.not_eq_true] at hs
      simp [tryCreds, firstSuccess, attempt_request, hresp, hs, ih']

/-- C6: when the first response of `Registry::get` is not 2xx: a non-401
status fails with `CouldNotGetToken` carrying that status; a 401 without a
`WWW-Authenticate` header fails with `InvalidAuthenticationChallenge`; and a
401 with a challenge retries once per obtained credential in order, returning
the first 2xx response, or `CouldNotAuthenticate` when no credential yields
2xx. -/
theorem registry_get_error_handling (net : Network) (r : HttpResponse)
    (hfirst : net.first = .ok r) (hfail : is_success r.status = false) :
    (r.status ≠ 401 →
      Registry.get net = .error (.couldNotGetToken r.status)) ∧
    (r.status = 401 → r.wwwAuthenticate = none →
      Registry.get net = .error (.invalidAuthenticationChallenge
        "No authentication challenge presented")) ∧
    (∀ header creds, r.status = 401 → r.wwwAuthenticate = some header →
      net.challenge header = .ok creds →
      (∀ c ∈ creds, ∃ resp, net.retry c = .ok resp) →
      Registry.get net =
        (match firstSuccess net.retry creds with
         | some resp => .ok resp
         | none => .error .couldNotAuthenticate)) := by
  refine ⟨?_, ?_, ?_⟩
  · intro hst
    simp [Registry.get, Registry.getTraced, attempt_request, hfirst, hfail, hst]
  · intro hst hww
    simp [Registry.get, Registry.getTraced, attempt_request, hfirst, hfail,
      hst, hww, show is_success 401 = false from by decide]
  · intro header creds hst hww hch hok
    rw [← tryCreds_eq_firstSuccess net creds hok]
    simp [Registry.get, Registry.getTraced, attempt_request, hfirst, hfail,
      hst, hww, hch, show is_success 401 = false from by decide]

/-- Witness for `registry_get_error_handling` on three concrete networks:
a 500 first response, a bare 401, and a 401 whose challenge yields one
credential that retries to 200. -/
theorem registry_get_error_handling_witness :
    Registry.get
      { first := .ok ⟨500, none⟩, retry := fun _ => .error (),
        challenge := fun _ => .ok [] } =
      .error (.couldNotGetToken 500) ∧
    Registry.get
      { first := .ok ⟨401, none⟩, retry := fun _ => .error (),
        challenge := fun _ => .ok [] } =
      .error (.invalidAuthenticationChallenge
        "No authentication challenge presented") ∧
    Registry.get
      { first := .ok ⟨401, some "Bearer realm=auth"⟩,
        retry := fun _ => .ok ⟨200, none⟩,
        challenge := fun _ => .ok [Credential.token ⟨"abc", none, none, none⟩] } =
      .ok ⟨200, none⟩ := by
  refine ⟨?_, ?_, ?_⟩
  · exact (registry_get_error_handling _ ⟨500, none⟩ rfl rfl).1 (by decide)
  · exact (registry_get_error_handling _ ⟨401, none⟩ rfl rfl).2.1 rfl rfl
  · have h := (registry_get_error_handling
      { first := .ok ⟨401, some "Bearer realm=auth"⟩,
        retry := fun _ => .ok ⟨200, none⟩,
        challenge := fun _ => .ok [Credential.token ⟨"abc", none, none, none⟩] }
      ⟨401, some "Bearer realm=auth"⟩ rfl rfl).2.2
      "Bearer realm=auth" [Credential.token ⟨"abc", none, none, none⟩]
      rfl rfl rfl (fun c _ => ⟨⟨200, none⟩, rfl⟩)
    rw [h]
    rfl

/-- Helper: collecting the successful token fetches over a challenge list
equals filtering each challenge by the outcome of its own `Token::get`. -/
theorem collect_tokens_eq (fetch : TokenFetch)
    (challenges : List BearerChallenge) :
    ((challenges.map (fun c => Token.get fetch c)).filterMap
        Except.toOption).map Credential.token =
      challenges.filterMap (fun c =>
        match Token.get fetch c with
        | .ok t => some (Credential.token t)
        | .error _ => none) := by
  induction challenges with
  | nil => rfl
  | cons c rest ih =>
    have ih' :
        (List.filterMap (Except.toOption ∘ fun c => Token.get fetch c)
            rest).map Credential.token =
          rest.filterMap (fun c =>
            match Token.get fetch c with
            | .ok t => some (Credential.token t)
            | .error _ => none) := by
      rw [← List.filterMap_map]
      exact ih
    rcases hT : Token.get fetch c with e | t
    · simp [hT, Except.toOption, ih']
    · simp [hT, Except.toOption, ih']

/-- C7: `do_challenge` fails (with `InvalidAuthenticationChallenge`) exactly
when the header cannot be parsed or contains no Bearer challenge; otherwise
it returns `Ok` with one `Credential::Token` per Bearer challenge whose token
acquisition succeeded, every per-challenge `Token::get` failure being dropped
from the result rather than surfaced. -/
theorem do_challenge_spec (fetch : TokenFetch) (parsed : ParsedChallenges)
    (headerDebug : String) :
    ((∃ s, do_challenge fetch parsed headerDebug =
        .error (.invalidAuthenticationChallenge s)) ↔
      (parsed = .error () ∨ parsed = .ok none)) ∧
    (∀ challenges, parsed = .ok (some challenges) →
      do_challenge fetch parsed headerDebug =
        .ok (challenges.filterMap (fun c =>
          match Token.get fetch c with
          | .ok t => some (Credential.token t)
          | .error _ => none))) := by
  constructor
  · constructor
    · rintro ⟨s, hs⟩
      rcases parsed with e | o
      · cases e
        exact Or.inl rfl
      · rcases o with _ | challenges
        · exact Or.inr rfl
        · simp [do_challenge] at hs
    · rintro (rfl | rfl)
      · exact ⟨headerDebug, rfl⟩
      · exact ⟨"No Bearer Challenge provided", rfl⟩
  · rintro challenges rfl
    simp only [do_challenge]
    rw [collect_tokens_eq]

/-- Witness for `do_challenge_spec`: one challenge succeeds with token `abc`,
one lacks a realm, one gets a 403 from its realm; only the first token is
returned, and the no-Bearer header fails. -/
theorem do_challenge_spec_witness :
    do_challenge
      (fun realm _ =>
        if realm = "https://auth.example/token" then
          .ok (200, some ⟨"abc", none, none, none⟩)
        else
          .ok (403, none))
      (.ok (some [⟨some "https://auth.example/token", some "r.example",
                    some ["repository:x:pull"]⟩,
                  ⟨none, none, none⟩,
                  ⟨some "https://bad.example/token", none, none⟩]))
      "hdr" =
      .ok [Credential.token ⟨"abc", none, none, none⟩] ∧
    (∃ s, do_challenge (fun _ _ => .ok (200, none)) (.ok none) "hdr" =
      .error (.invalidAuthenticationChallenge s)) := by
  constructor
  · have h := (do_challenge_spec
      (fun realm _ =>
        if realm = "https://auth.example/token" then
          .ok (200, some ⟨"abc", none, none, none⟩)
        else
          .ok (403, none))
      (.ok (some [⟨some "https://auth.example/token", some "r.example",
                    some ["repository:x:pull"]⟩,
                  ⟨none, none, none⟩,
                  ⟨some "https://bad.example/token", none, none⟩]))
      "hdr").2 _ rfl
    rw [h]
    rfl
  · exact ((do_challenge_spec (fun _ _ => .ok (200, none)) (.ok none)
      "hdr").1).2 (Or.inr rfl)

/-- C8: in every execution of `Registry::get` the auth engine is invoked at
most once, and never when the initial response is 2xx or a non-401 failure;
there is no second round of auth acquisition within a single call. -/
theorem registry_get_single_auth_round (net : Network) :
    (Registry.getTraced net).2 ≤ 1 ∧
    (∀ r, net.first = .ok r → is_success r.status = true →
      (Registry.getTraced net).2 = 0) ∧
    (∀ r, net.first = .ok r → is_success r.status = false → r.status ≠ 401 →
      (Registry.getTraced net).2 = 0) := by
  refine ⟨?_, ?_, ?_⟩
  · simp only [Registry.getTraced]
    repeat' split
    all_goals simp
  · intro r hfirst hs
    simp [Registry.getTraced, attempt_request, hfirst, hs]
  · intro r hfirst hs hst
    simp [Registry.getTraced, attempt_request, hfirst, hs, hst]

/-- Witness for `registry_get_single_auth_round` on concrete networks whose
first response is a 200 and a 500. -/
theorem registry_get_single_auth_round_witness :
    (Registry.getTraced
      { first := .ok ⟨200, none⟩, retry := fun _ => .error (),
        challenge := fun _ => .ok [] }).2 = 0 ∧
    (Registry.getTraced
      { first := .ok ⟨500, none⟩, retry := fun _ => .error (),
        challenge := fun _ => .ok [] }).2 = 0 := by
  constructor
  · exact (registry_get_single_auth_round _).2.1 ⟨200, none⟩ rfl rfl
  · exact (registry_get_single_auth_round _).2.2 ⟨500, none⟩ rfl rfl (by decide)

end Opencontainers
